import Mathlib

/-
Verification of the Mython interpreter core (lexer, runtime, AST evaluation)
against its natural-language specification.

The development is a shallow embedding of the three source files
(lexer.cpp, runtime.cpp, statement.cpp).  Pure C++ member functions become
Lean functions; the token stream and the interpreter state (instance heap,
printed output) are threaded explicitly; thrown runtime_error values become
an error result; the thrown ObjectHolder used for `return` becomes a
dedicated `ret` result; recursion through method bodies is made total with
an explicit fuel parameter (fuel 0 yields a `timeout` result that the C++
program, which has no fuel, never produces).
-/

set_option maxRecDepth 4000

namespace Mython

/- ===================== Lexer (lexer.cpp) ===================== -/

/-- Token vocabulary, from parse::token_type (lexer.h / spec section 3). -/
inductive Token where
  | number (value : Int)
  | id (value : String)
  | str (value : String)
  | char (value : Char)
  | kwClass
  | kwReturn
  | kwIf
  | kwElse
  | kwDef
  | newline
  | kwPrint
  | indent
  | dedent
  | kwAnd
  | kwOr
  | kwNot
  | eq
  | notEq
  | lessOrEq
  | greaterOrEq
  | kwNone
  | kwTrue
  | kwFalse
  | eof
deriving DecidableEq, Repr

/-- Lexer state: the remaining input characters plus the members of
parse::Lexer (`begin_`, `indents_`, `indent_pos_`, `current_token_`). -/
structure LexerState where
  input : List Char
  begin_ : Bool
  indents_ : Nat
  indent_pos_ : Nat
  current_token_ : Token
deriving DecidableEq, Repr

/-- The single-quote character, written via its code point. -/
def singleQuote : Char := Char.ofNat 39

/-- Lexer::PassString consumes the rest of the current line via getline;
this is the effect on the input stream (the member updates `begin_ := true`,
`indents_ := 0` are applied at the call sites). -/
def passStringInput : List Char → List Char
  | [] => []
  | c :: rest => if c = '\n' then rest else passStringInput rest

/-- Lexer::PassComment: consume characters up to, but not including, the
next newline (the final newline is put back). -/
def passComment : List Char → List Char
  | [] => []
  | c :: rest => if c = '\n' then c :: rest else passComment rest

/-- Lexer::CountSpaces: count and consume a run of spaces. -/
def countSpaces : List Char → Nat × List Char
  | [] => (0, [])
  | c :: rest =>
    if c = ' ' then
      let (n, r) := countSpaces rest
      (n + 1, r)
    else (0, c :: rest)

/-- Digit run consumed by Lexer::ParseNumber. -/
def takeDigits : List Char → List Char × List Char
  | [] => ([], [])
  | c :: rest =>
    if c.isDigit then
      let (ds, r) := takeDigits rest
      (c :: ds, r)
    else ([], c :: rest)

/-- Decimal value of a digit run (std::stoi on the accumulated digits). -/
def digitsVal (ds : List Char) : Nat :=
  ds.foldl (fun acc c => acc * 10 + (c.toNat - 48)) 0

/-- Lexer::ParseNumber: consume a digit run and convert it with stoi. -/
def ParseNumber (input : List Char) : Int × List Char :=
  let (ds, r) := takeDigits input
  (Int.ofNat (digitsVal ds), r)

/-- Lexer::ParseName: consume a run of alphanumeric or underscore chars. -/
def takeNameChars : List Char → List Char × List Char
  | [] => ([], [])
  | c :: rest =>
    if c.isAlphanum || c = '_' then
      let (cs, r) := takeNameChars rest
      (c :: cs, r)
    else ([], c :: rest)

/-- Lexer::ParseName, returning the name and the remaining input. -/
def ParseName (input : List Char) : String × List Char :=
  let (cs, r) := takeNameChars input
  (String.mk cs, r)

/-- Body loop of Lexer::ParseString: `start` is the opening quote already
consumed, `line` the accumulated contents.  A backslash starts an escape;
the recognized escapes are the double quote, the single quote, n and t; any
other escaped character is dropped together with the backslash.  Reaching
the end of input without the closing quote is the unterminated-string
error (the source asserts `c == start` after the loop). -/
def parseStringBody (start : Char) : List Char → String → Except String (String × List Char)
  | [], _ => .error "unterminated string literal"
  | c :: rest, line =>
    if c = '\\' then
      match rest with
      | [] => .error "unterminated string literal"
      | next :: rest2 =>
        if next = '"' then parseStringBody start rest2 (line.push '"')
        else if next = singleQuote then parseStringBody start rest2 (line.push singleQuote)
        else if next = 'n' then parseStringBody start rest2 (line.push '\n')
        else if next = 't' then parseStringBody start rest2 (line.push '\t')
        else parseStringBody start rest2 line
    else if c = start then .ok (line, rest)
    else parseStringBody start rest (line.push c)

/-- Lexer::ParseString: read the opening quote, then the body. -/
def ParseString : List Char → Except String (String × List Char)
  | [] => .error "unterminated string literal"
  | start :: rest => parseStringBody start rest ""

/-- Modelled from the spec: the reserved-word table `key_words` is declared
in lexer.h, which is not among the provided sources.  Spec section 4.B
item 7 lists the reserved words class, return, if, else, def, print, and,
or, not, None, True, False, each mapped to its payload-free token. -/
def keyWordToken : String → Option Token
  | "class" => some .kwClass
  | "return" => some .kwReturn
  | "if" => some .kwIf
  | "else" => some .kwElse
  | "def" => some .kwDef
  | "print" => some .kwPrint
  | "and" => some .kwAnd
  | "or" => some .kwOr
  | "not" => some .kwNot
  | "None" => some .kwNone
  | "True" => some .kwTrue
  | "False" => some .kwFalse
  | _ => Option.none

/-- Modelled from the spec: the two-character operator table `dual_symbols`
is declared in lexer.h, which is not among the provided sources.  Spec
section 4.B item 9 lists the digraphs == != <= >= mapped to Eq, NotEq,
LessOrEq, GreaterOrEq. -/
def dualToken : Char → Char → Option Token
  | '=', '=' => some .eq
  | '!', '=' => some .notEq
  | '<', '=' => some .lessOrEq
  | '>', '=' => some .greaterOrEq
  | _, _ => Option.none

/-- Lexer::LoadNextToken, with explicit fuel for the self-recursion on
blank lines, comments and space runs (each recursive call strictly consumes
input, so fuel `input.length + 1` always suffices). -/
def LoadNextToken : Nat → LexerState → Except String LexerState
  | 0, _ => .error "lexer fuel exhausted"
  | fuel + 1, st =>
    match st.input with
    | [] =>
      if st.begin_ = false then
        .ok { st with begin_ := true, indents_ := 0, current_token_ := .newline }
      else if 0 < st.indent_pos_ then
        .ok { st with indent_pos_ := st.indent_pos_ - 1, current_token_ := .dedent }
      else
        .ok { st with current_token_ := .eof }
    | ch :: rest =>
      if ch = '\n' then
        if st.begin_ then
          LoadNextToken fuel
            { st with input := passStringInput st.input, begin_ := true, indents_ := 0 }
        else
          .ok { st with input := passStringInput st.input, begin_ := true, indents_ := 0,
                        current_token_ := .newline }
      else if ch = '#' then
        LoadNextToken fuel { st with input := passComment st.input }
      else if ch = ' ' then
        let (cnt, r) := countSpaces st.input
        LoadNextToken fuel
          { st with input := r, indents_ := if st.begin_ then cnt / 2 else st.indents_ }
      else if (st.indent_pos_ != st.indents_) && st.begin_ then
        if st.indent_pos_ < st.indents_ then
          .ok { st with indent_pos_ := st.indent_pos_ + 1, current_token_ := .indent }
        else
          .ok { st with indent_pos_ := st.indent_pos_ - 1, current_token_ := .dedent }
      else
        if ch.isDigit then
          let (n, r) := ParseNumber st.input
          .ok { st with input := r, begin_ := false, current_token_ := .number n }
        else if ch.isAlpha || ch = '_' then
          let (name, r) := ParseName st.input
          match keyWordToken name with
          | some t => .ok { st with input := r, begin_ := false, current_token_ := t }
          | Option.none => .ok { st with input := r, begin_ := false, current_token_ := .id name }
        else if ch = '"' || ch = singleQuote then
          match ParseString st.input with
          | .ok (s, r) => .ok { st with input := r, begin_ := false, current_token_ := .str s }
          | .error m => .error m
        else
          match rest with
          | c2 :: rest2 =>
            match dualToken ch c2 with
            | some t => .ok { st with input := rest2, begin_ := false, current_token_ := t }
            | Option.none =>
              .ok { st with input := rest, begin_ := false, current_token_ := .char ch }
          | [] => .ok { st with input := rest, begin_ := false, current_token_ := .char ch }

/-- Lexer::NextToken: one call of LoadNextToken, with enough fuel for its
input-consuming self-recursion. -/
def nextToken (st : LexerState) : Except String LexerState :=
  LoadNextToken (st.input.length + 1) st

/-- Modelled from the spec: the member initializers of parse::Lexer live in
lexer.h, which is not among the provided sources.  Per spec section 4.B,
`at_line_start` is true at construction and both indentation counters start
at 0; the constructor (lexer.cpp) then calls LoadNextToken, so construction
already positions the cursor on the first token.  The pre-load value of
`current_token_` is never observed; Eof stands in for it. -/
def lexerInit (input : List Char) : Except String LexerState :=
  nextToken { input := input, begin_ := true, indents_ := 0, indent_pos_ := 0,
              current_token_ := .eof }

/-- Collect `n` tokens: the current token, then the tokens produced by
successive NextToken calls. -/
def collectTokens : Nat → LexerState → Except String (List Token)
  | 0, _ => .ok []
  | n + 1, st =>
    match nextToken st with
    | .ok st2 =>
      match collectTokens n st2 with
      | .ok ts => .ok (st.current_token_ :: ts)
      | .error m => .error m
    | .error m => .error m

/-- The first `n` tokens a freshly constructed lexer presents. -/
def lexFirstTokens (input : List Char) (n : Nat) : Except String (List Token) :=
  match lexerInit input with
  | .ok st => collectTokens n st
  | .error m => .error m

/-- A closing quote for `q` occurs in the character list, under the string
scanning discipline in which a backslash always consumes the following
character.  This is the condition under which ParseString terminates the
literal. -/
def hasCloser (q : Char) : List Char → Bool
  | [] => false
  | c :: rest =>
    if c = '\\' then
      match rest with
      | [] => false
      | _ :: rest2 => hasCloser q rest2
    else
      (c = q) || hasCloser q rest

/- ============= Runtime object model (runtime.cpp) ============= -/

/-- Ownership mode of an ObjectHolder: ObjectHolder::Own wraps an owning
shared pointer, ObjectHolder::Share a non-owning alias (its deleter does
nothing). -/
inductive HolderMode where
  | own
  | share
deriving DecidableEq, Repr

mutual

/-- runtime::Object and its concrete variants.  A ClassInstance is
identified by the reference `ref` of its field closure in the interpreter
heap (identity is by reference, not structural); its fields live in the
state so that mutation through one alias is seen through every alias. -/
inductive Object where
  | number (value : Int)
  | str (value : String)
  | boolean (value : Bool)
  | cls (value : RClass)
  | inst (cls : RClass) (ref : Nat)

/-- runtime::Class: a name, an ordered method list, an optional parent. -/
inductive RClass where
  | mk (name : String) (methods : List RMethod) (parent : Option RClass)

/-- runtime::Method: name, ordered formal parameter names, body. -/
inductive RMethod where
  | mk (name : String) (formal_params : List String) (body : Statement)

/-- The AST statement nodes of statement.cpp with their constructor data.
A NewInstance node owns its ClassInstance member, modelled by a fixed heap
reference `ref` baked into the node.  The C++ Comparison node stores an
arbitrary comparator function value and is not representable as first-order
data; the six comparator functions it is instantiated with are embedded
separately below (`Equal`, `Less` and the derived four). -/
inductive Statement where
  | variableValue (dotted_ids : List String)
  | assignment (var : String) (rv : Statement)
  | fieldAssignment (object : List String) (field_name : String) (rv : Statement)
  | print (args : List Statement)
  | methodCall (object : Statement) (method : String) (args : List Statement)
  | methodBody (body : Statement)
  | ret (statement : Statement)
  | classDefinition (cls : RClass)
  | newInstance (cls : RClass) (ref : Nat) (args : List Statement)
  | stringify (argument : Statement)
  | add (lhs rhs : Statement)
  | sub (lhs rhs : Statement)
  | mult (lhs rhs : Statement)
  | div (lhs rhs : Statement)
  | orOp (lhs rhs : Statement)
  | andOp (lhs rhs : Statement)
  | notOp (argument : Statement)
  | compound (args : List Statement)
  | ifElse (condition if_body : Statement) (else_body : Option Statement)
  | numericConst (value : Int)
  | stringConst (value : String)
  | boolConst (value : Bool)
  | noneConst

end

/-- runtime::ObjectHolder: either empty (ObjectHolder::None) or a handle on
an Object with an ownership mode. -/
inductive ObjectHolder where
  | none
  | holder (mode : HolderMode) (obj : Object)

/-- ObjectHolder::Own. -/
def ObjectHolder.Own (o : Object) : ObjectHolder := .holder .own o

/-- ObjectHolder::Share: a non-owning alias. -/
def ObjectHolder.Share (o : Object) : ObjectHolder := .holder .share o

/-- ObjectHolder::operator bool: the holder is not empty. -/
def ObjectHolder.isValid : ObjectHolder → Bool
  | .none => false
  | .holder _ _ => true

/-- TryAs of runtime::Number. -/
def ObjectHolder.tryAsNumber : ObjectHolder → Option Int
  | .holder _ (.number n) => some n
  | _ => Option.none

/-- TryAs of runtime::String. -/
def ObjectHolder.tryAsString : ObjectHolder → Option String
  | .holder _ (.str s) => some s
  | _ => Option.none

/-- TryAs of runtime::Bool. -/
def ObjectHolder.tryAsBool : ObjectHolder → Option Bool
  | .holder _ (.boolean b) => some b
  | _ => Option.none

/-- TryAs of runtime::ClassInstance, giving its class and heap reference. -/
def ObjectHolder.tryAsInstance : ObjectHolder → Option (RClass × Nat)
  | .holder _ (.inst c r) => some (c, r)
  | _ => Option.none

/-- runtime::Closure: a name-to-holder map (std::unordered_map), modelled
as an association list with overwriting insertion. -/
abbrev Closure := List (String × ObjectHolder)

/-- Map lookup (Closure::count / Closure::at). -/
def closureFind : Closure → String → Option ObjectHolder
  | [], _ => Option.none
  | (k, v) :: rest, key => if k = key then some v else closureFind rest key

/-- Map write `closure[key] = v`: overwrite if present, insert otherwise. -/
def closureInsert : Closure → String → ObjectHolder → Closure
  | [], key, v => [(key, v)]
  | (k, w) :: rest, key, v =>
    if k = key then (k, v) :: rest else (k, w) :: closureInsert rest key v

/-- Field closures of the live class instances, keyed by instance
reference.  An instance whose reference is absent has no fields yet (a
freshly constructed ClassInstance has an empty closure). -/
abbrev Heap := List (Nat × Closure)

/-- Field closure of the instance `ref` (ClassInstance::Fields). -/
def heapGet : Heap → Nat → Closure
  | [], _ => []
  | (k, c) :: rest, ref => if k = ref then c else heapGet rest ref

/-- Replace the field closure of the instance `ref`. -/
def heapSet : Heap → Nat → Closure → Heap
  | [], ref, c => [(ref, c)]
  | (k, w) :: rest, ref, c =>
    if k = ref then (k, c) :: rest else (k, w) :: heapSet rest ref c

/-- Interpreter state outside the local closure: the instance heap and the
output accumulated on the Context output stream. -/
structure State where
  heap : Heap
  output : String

/-- Result of an evaluation step: a normal value, the thrown ObjectHolder
of a `return` statement, a thrown runtime_error, or fuel exhaustion (an
artifact of the embedding; the C++ code has no fuel). -/
inductive Res (α : Type) where
  | ok (v : α)
  | ret (v : ObjectHolder)
  | err (msg : String)
  | timeout

/-- runtime::IsTrue: a nonzero Number, a true Bool or a non-empty String
is truthy; every other object and the empty holder are falsy. -/
def IsTrue (object : ObjectHolder) : Bool :=
  match object.tryAsNumber with
  | some n => n != 0
  | Option.none =>
    match object.tryAsBool with
    | some b => b
    | Option.none =>
      match object.tryAsString with
      | some s => !s.isEmpty
      | Option.none => false

/-- Projection Method::name. -/
def RMethod.name : RMethod → String
  | .mk n _ _ => n

/-- Projection Method::formal_params. -/
def RMethod.formal_params : RMethod → List String
  | .mk _ ps _ => ps

/-- Projection Method::body. -/
def RMethod.body : RMethod → Statement
  | .mk _ _ b => b

/-- Class::GetName. -/
def RClass.name : RClass → String
  | .mk n _ _ => n

/-- Projection Class::methods_. -/
def RClass.methods : RClass → List RMethod
  | .mk _ ms _ => ms

/-- Projection Class::parent_. -/
def RClass.parent : RClass → Option RClass
  | .mk _ _ p => p

mutual

/-- Class::GetMethod: linear scan of the own method list by name
(std::find_if); on miss, delegate to the parent. -/
def GetMethod : RClass → String → Option RMethod
  | .mk _ methods parent, name =>
    match methods.find? (fun m => m.name == name) with
    | some m => some m
    | Option.none => GetMethodParent parent name

/-- The `else if (parent_) return parent_->GetMethod(name)` fallback of
Class::GetMethod: nothing without a parent. -/
def GetMethodParent : Option RClass → String → Option RMethod
  | some p, name => GetMethod p name
  | Option.none, _ => Option.none

end

/-- ClassInstance::HasMethod: the method found by GetMethod, if any, has
exactly `argument_count` formal parameters. -/
def HasMethod (cls : RClass) (method : String) (argument_count : Nat) : Bool :=
  match GetMethod cls method with
  | some m => m.formal_params.length == argument_count
  | Option.none => false

mutual

/-- All methods of a class and its parent chain, own methods first. -/
def methodsOfChain : RClass → List RMethod
  | .mk _ ms parent => ms ++ methodsOfChainParent parent

/-- Methods contributed by an optional parent class. -/
def methodsOfChainParent : Option RClass → List RMethod
  | some p => methodsOfChain p
  | Option.none => []

end

/-- Parameter binding loop of ClassInstance::Call:
`closure[param] = actual_args.at(index++)`.  The case of more formals than
actuals is unreachable from Call, which has already checked the arity. -/
def bindParams : Closure → List String → List ObjectHolder → Closure
  | c, [], _ => c
  | c, _ :: _, [] => c
  | c, p :: ps, a :: rest => bindParams (closureInsert c p a) ps rest

/-- ast::VariableValue::Execute: look up the head of the dotted path in the
closure; on a longer path require a ClassInstance and recurse into its
field closure.  It only reads, so it returns just a holder or an error. -/
def VariableValueExec : List String → Closure → State → Except String ObjectHolder
  | [], _, _ => .error "Variable not found"
  | id0 :: rest, closure, st =>
    match closureFind closure id0 with
    | some vr =>
      match rest with
      | [] => .ok vr
      | _ :: _ =>
        match vr.tryAsInstance with
        | some (_, ref) => VariableValueExec rest (heapGet st.heap ref) st
        | Option.none => .error "Error cast to ClassInstance"
    | Option.none => .error "Variable not found"

mutual

/-- Statement::Execute of statement.cpp, node by node.  The closure is the
C++ by-reference closure parameter, returned updated; the state carries the
instance heap and the Context output.  Every recursive evaluation spends
one unit of fuel. -/
def Execute : Nat → Statement → Closure → State → Res ObjectHolder × Closure × State
  | 0, _, closure, st => (.timeout, closure, st)
  | fuel + 1, s, closure, st =>
    match s with
    | .variableValue ids =>
      match VariableValueExec ids closure st with
      | .ok v => (.ok v, closure, st)
      | .error m => (.err m, closure, st)
    | .assignment var rv =>
      match Execute fuel rv closure st with
      | (.ok v, c1, st1) => (.ok v, closureInsert c1 var v, st1)
      | r => r
    | .fieldAssignment object field rv =>
      match VariableValueExec object closure st with
      | .ok v =>
        match v.tryAsInstance with
        | some (_, ref) =>
          match Execute fuel rv closure st with
          | (.ok w, c1, st1) =>
            (.ok w, c1,
              { st1 with heap := heapSet st1.heap ref
                           (closureInsert (heapGet st1.heap ref) field w) })
          | r => r
        | Option.none => (.err "Error cast to ClassInstance", closure, st)
      | .error m => (.err m, closure, st)
    | .print args =>
      match ExecutePrintArgs fuel args true closure st with
      | (.ok _, c1, st1) => (.ok .none, c1, { st1 with output := st1.output ++ "\n" })
      | (.ret v, c1, st1) => (.ret v, c1, st1)
      | (.err m, c1, st1) => (.err m, c1, st1)
      | (.timeout, c1, st1) => (.timeout, c1, st1)
    | .methodCall object method args =>
      match Execute fuel object closure st with
      | (.ok v, c1, st1) =>
        match v.tryAsInstance with
        | some (cls, ref) =>
          match ExecuteList fuel args c1 st1 with
          | (.ok actual_args, c2, st2) =>
            match Call fuel cls ref method actual_args st2 with
            | (.ok w, st3) => (.ok w, c2, st3)
            | (.ret w, st3) => (.ret w, c2, st3)
            | (.err m, st3) => (.err m, c2, st3)
            | (.timeout, st3) => (.timeout, c2, st3)
          | (.ret w, c2, st2) => (.ret w, c2, st2)
          | (.err m, c2, st2) => (.err m, c2, st2)
          | (.timeout, c2, st2) => (.timeout, c2, st2)
        | Option.none => (.err "Error cast to ClassInstance", c1, st1)
      | r => r
    | .methodBody body =>
      match Execute fuel body closure st with
      | (.ok v, c1, st1) => (.ok v, c1, st1)
      | (.ret v, c1, st1) => (.ok v, c1, st1)
      | r => r
    | .ret statement =>
      match Execute fuel statement closure st with
      | (.ok v, c1, st1) => (.ret v, c1, st1)
      | r => r
    | .classDefinition cls =>
      (.ok .none, closureInsert closure cls.name (.holder .own (.cls cls)), st)
    | .newInstance cls ref args =>
      if HasMethod cls "__init__" args.length then
        match ExecuteList fuel args closure st with
        | (.ok actual_args, c1, st1) =>
          match Call fuel cls ref "__init__" actual_args st1 with
          | (.ok _, st2) => (.ok (.holder .share (.inst cls ref)), c1, st2)
          | (.ret w, st2) => (.ret w, c1, st2)
          | (.err m, st2) => (.err m, c1, st2)
          | (.timeout, st2) => (.timeout, c1, st2)
        | (.ret w, c1, st1) => (.ret w, c1, st1)
        | (.err m, c1, st1) => (.err m, c1, st1)
        | (.timeout, c1, st1) => (.timeout, c1, st1)
      else
        (.ok (.holder .share (.inst cls ref)), closure, st)
    | .stringify argument =>
      match Execute fuel argument closure st with
      | (.ok v, c1, st1) =>
        match v with
        | .holder _ o =>
          match PrintObject fuel o st1 with
          | (.ok text, st2) => (.ok (.holder .own (.str text)), c1, st2)
          | (.ret w, st2) => (.ret w, c1, st2)
          | (.err m, st2) => (.err m, c1, st2)
          | (.timeout, st2) => (.timeout, c1, st2)
        | .none => (.ok (.holder .own (.str "None")), c1, st1)
      | r => r
    | .add lhs rhs =>
      match Execute fuel lhs closure st with
      | (.ok lv, c1, st1) =>
        match Execute fuel rhs c1 st1 with
        | (.ok rv, c2, st2) =>
          match lv, rv with
          | .holder _ (.number a), .holder _ (.number b) =>
            (.ok (.holder .own (.number (a + b))), c2, st2)
          | .holder _ (.str a), .holder _ (.str b) =>
            (.ok (.holder .own (.str (a ++ b))), c2, st2)
          | .holder _ (.inst cls ref), _ =>
            match Call fuel cls ref "__add__" [rv] st2 with
            | (.ok w, st3) => (.ok w, c2, st3)
            | (.ret w, st3) => (.ret w, c2, st3)
            | (.err m, st3) => (.err m, c2, st3)
            | (.timeout, st3) => (.timeout, c2, st3)
          | _, _ => (.err "Error addition", c2, st2)
        | r => r
      | r => r
    | .sub lhs rhs =>
      match Execute fuel lhs closure st with
      | (.ok lv, c1, st1) =>
        match Execute fuel rhs c1 st1 with
        | (.ok rv, c2, st2) =>
          match lv, rv with
          | .holder _ (.number a), .holder _ (.number b) =>
            (.ok (.holder .own (.number (a - b))), c2, st2)
          | _, _ => (.err "Error subtration", c2, st2)
        | r => r
      | r => r
    | .mult lhs rhs =>
      match Execute fuel lhs closure st with
      | (.ok lv, c1, st1) =>
        match Execute fuel rhs c1 st1 with
        | (.ok rv, c2, st2) =>
          match lv, rv with
          | .holder _ (.number a), .holder _ (.number b) =>
            (.ok (.holder .own (.number (a * b))), c2, st2)
          | _, _ => (.err "Error multiplication", c2, st2)
        | r => r
      | r => r
    | .div lhs rhs =>
      match Execute fuel lhs closure st with
      | (.ok lv, c1, st1) =>
        match Execute fuel rhs c1 st1 with
        | (.ok rv, c2, st2) =>
          match lv, rv with
          | .holder _ (.number a), .holder _ (.number b) =>
            if b = 0 then (.err "Division by zero", c2, st2)
            else (.ok (.holder .own (.number (Int.tdiv a b))), c2, st2)
          | _, _ => (.err "Error division", c2, st2)
        | r => r
      | r => r
    | .orOp lhs rhs =>
      match Execute fuel lhs closure st with
      | (.ok lv, c1, st1) =>
        if IsTrue lv then (.ok (.holder .own (.boolean true)), c1, st1)
        else
          match Execute fuel rhs c1 st1 with
          | (.ok rv, c2, st2) => (.ok (.holder .own (.boolean (IsTrue rv))), c2, st2)
          | r => r
      | r => r
    | .andOp lhs rhs =>
      match Execute fuel lhs closure st with
      | (.ok lv, c1, st1) =>
        if IsTrue lv then
          match Execute fuel rhs c1 st1 with
          | (.ok rv, c2, st2) => (.ok (.holder .own (.boolean (IsTrue rv))), c2, st2)
          | r => r
        else
          (.ok (.holder .own (.boolean false)), c1, st1)
      | r => r
    | .notOp argument =>
      match Execute fuel argument closure st with
      | (.ok v, c1, st1) => (.ok (.holder .own (.boolean (!IsTrue v))), c1, st1)
      | r => r
    | .compound args =>
      match ExecuteList fuel args closure st with
      | (.ok _, c1, st1) => (.ok .none, c1, st1)
      | (.ret w, c1, st1) => (.ret w, c1, st1)
      | (.err m, c1, st1) => (.err m, c1, st1)
      | (.timeout, c1, st1) => (.timeout, c1, st1)
    | .ifElse condition if_body else_body =>
      match Execute fuel condition closure st with
      | (.ok v, c1, st1) =>
        if IsTrue v then Execute fuel if_body c1 st1
        else
          match else_body with
          | some e => Execute fuel e c1 st1
          | Option.none => (.ok .none, c1, st1)
      | r => r
    | .numericConst n => (.ok (.holder .own (.number n)), closure, st)
    | .stringConst s => (.ok (.holder .own (.str s)), closure, st)
    | .boolConst b => (.ok (.holder .own (.boolean b)), closure, st)
    | .noneConst => (.ok .none, closure, st)

/-- Left-to-right evaluation of an argument list (the loops of
MethodCall::Execute, NewInstance::Execute and Compound::Execute). -/
def ExecuteList : Nat → List Statement → Closure → State → Res (List ObjectHolder) × Closure × State
  | 0, _, closure, st => (.timeout, closure, st)
  | _ + 1, [], closure, st => (.ok [], closure, st)
  | fuel + 1, s :: rest, closure, st =>
    match Execute fuel s closure st with
    | (.ok v, c1, st1) =>
      match ExecuteList fuel rest c1 st1 with
      | (.ok vs, c2, st2) => (.ok (v :: vs), c2, st2)
      | (.ret w, c2, st2) => (.ret w, c2, st2)
      | (.err m, c2, st2) => (.err m, c2, st2)
      | (.timeout, c2, st2) => (.timeout, c2, st2)
    | (.ret w, c1, st1) => (.ret w, c1, st1)
    | (.err m, c1, st1) => (.err m, c1, st1)
    | (.timeout, c1, st1) => (.timeout, c1, st1)

/-- The loop of Print::Execute: a space before every argument but the
first, then the argument is evaluated and printed (an empty holder prints
as None).  The terminating newline is appended by the caller. -/
def ExecutePrintArgs : Nat → List Statement → Bool → Closure → State → Res Unit × Closure × State
  | 0, _, _, closure, st => (.timeout, closure, st)
  | _ + 1, [], _, closure, st => (.ok (), closure, st)
  | fuel + 1, arg :: rest, isFirst, closure, st =>
    let st0 := if isFirst then st else { st with output := st.output ++ " " }
    match Execute fuel arg closure st0 with
    | (.ok v, c1, st1) =>
      match v with
      | .holder _ o =>
        match PrintObject fuel o st1 with
        | (.ok text, st2) =>
          ExecutePrintArgs fuel rest false c1 { st2 with output := st2.output ++ text }
        | (.ret w, st2) => (.ret w, c1, st2)
        | (.err m, st2) => (.err m, c1, st2)
        | (.timeout, st2) => (.timeout, c1, st2)
      | .none => ExecutePrintArgs fuel rest false c1 { st1 with output := st1.output ++ "None" }
    | (.ret w, c1, st1) => (.ret w, c1, st1)
    | (.err m, c1, st1) => (.err m, c1, st1)
    | (.timeout, c1, st1) => (.timeout, c1, st1)

/-- ClassInstance::Call (runtime.cpp): fail unless HasMethod grants the
name with the actual arity; then look the method up again, build a fresh
closure binding "self" to a non-owning share of the instance and each
formal parameter to the matching actual argument, and execute the body in
it.  The `none` inner branch is unreachable, since HasMethod just
succeeded; it mirrors the same failure. -/
def Call : Nat → RClass → Nat → String → List ObjectHolder → State → Res ObjectHolder × State
  | 0, _, _, _, _, st => (.timeout, st)
  | fuel + 1, cls, ref, method, actual_args, st =>
    if HasMethod cls method actual_args.length then
      match GetMethod cls method with
      | some m =>
        let c0 := bindParams (closureInsert [] "self" (.holder .share (.inst cls ref)))
                    m.formal_params actual_args
        let r := Execute fuel m.body c0 st
        (r.1, r.2.2)
      | Option.none => (.err ("Error calling method " ++ method), st)
    else
      (.err ("Error calling method " ++ method), st)

/-- Object::Print of each concrete object (runtime.cpp), returning the
text written to the given stream.  ClassInstance::Print calls a zero-arg
__str__ when the class has one and prints its result (dereferencing an
empty result holder fails the holder validity assertion); otherwise the
C++ prints the instance address, modelled as a stand-in text keyed by the
instance reference. -/
def PrintObject : Nat → Object → State → Res String × State
  | 0, _, st => (.timeout, st)
  | fuel + 1, o, st =>
    match o with
    | .number n => (.ok (toString n), st)
    | .str s => (.ok s, st)
    | .boolean b => (.ok (if b then "True" else "False"), st)
    | .cls c => (.ok ("Class " ++ c.name), st)
    | .inst cls ref =>
      if HasMethod cls "__str__" 0 then
        match Call fuel cls ref "__str__" [] st with
        | (.ok v, st1) =>
          match v with
          | .holder _ o2 => PrintObject fuel o2 st1
          | .none => (.err "ObjectHolder is not valid", st1)
        | (.ret w, st1) => (.ret w, st1)
        | (.err m, st1) => (.err m, st1)
        | (.timeout, st1) => (.timeout, st1)
      else
        (.ok ("<ClassInstance " ++ toString ref ++ ">"), st)

end

/-- runtime::Equal: same-typed Numbers, Strings and Bools compare by
value; a ClassInstance on the left delegates to its __eq__ and coerces the
result with IsTrue; two empty holders are equal; anything else throws. -/
def Equal (fuel : Nat) (lhs rhs : ObjectHolder) (st : State) : Res Bool × State :=
  match lhs.tryAsNumber, rhs.tryAsNumber with
  | some a, some b => (.ok (decide (a = b)), st)
  | _, _ =>
    match lhs.tryAsString, rhs.tryAsString with
    | some a, some b => (.ok (decide (a = b)), st)
    | _, _ =>
      match lhs.tryAsBool, rhs.tryAsBool with
      | some a, some b => (.ok (a == b), st)
      | _, _ =>
        match lhs.tryAsInstance with
        | some (cls, ref) =>
          match Call fuel cls ref "__eq__" [rhs] st with
          | (.ok v, st1) => (.ok (IsTrue v), st1)
          | (.ret w, st1) => (.ret w, st1)
          | (.err m, st1) => (.err m, st1)
          | (.timeout, st1) => (.timeout, st1)
        | Option.none =>
          if !lhs.isValid && !rhs.isValid then (.ok true, st)
          else (.err "Cannot compare objects for equality", st)

/-- runtime::Less: same-typed Numbers, Strings and Bools compare with the
less-than operator; a ClassInstance on the left delegates to its __lt__
and coerces with IsTrue; anything else throws. -/
def Less (fuel : Nat) (lhs rhs : ObjectHolder) (st : State) : Res Bool × State :=
  match lhs.tryAsNumber, rhs.tryAsNumber with
  | some a, some b => (.ok (decide (a < b)), st)
  | _, _ =>
    match lhs.tryAsString, rhs.tryAsString with
    | some a, some b => (.ok (decide (a < b)), st)
    | _, _ =>
      match lhs.tryAsBool, rhs.tryAsBool with
      | some a, some b => (.ok (decide (a < b)), st)
      | _, _ =>
        match lhs.tryAsInstance with
        | some (cls, ref) =>
          match Call fuel cls ref "__lt__" [rhs] st with
          | (.ok v, st1) => (.ok (IsTrue v), st1)
          | (.ret w, st1) => (.ret w, st1)
          | (.err m, st1) => (.err m, st1)
          | (.timeout, st1) => (.timeout, st1)
        | Option.none => (.err "Cannot compare objects for less", st)

/-- runtime::NotEqual: the negation of Equal. -/
def NotEqual (fuel : Nat) (lhs rhs : ObjectHolder) (st : State) : Res Bool × State :=
  match Equal fuel lhs rhs st with
  | (.ok b, st1) => (.ok (!b), st1)
  | (r, st1) => (r, st1)

/-- runtime::Greater: the negation of (Less or Equal); the disjunction
short-circuits, so Equal is only evaluated when Less returned false. -/
def Greater (fuel : Nat) (lhs rhs : ObjectHolder) (st : State) : Res Bool × State :=
  match Less fuel lhs rhs st with
  | (.ok true, st1) => (.ok false, st1)
  | (.ok false, st1) =>
    match Equal fuel lhs rhs st1 with
    | (.ok b, st2) => (.ok (!b), st2)
    | (r, st2) => (r, st2)
  | (r, st1) => (r, st1)

/-- runtime::LessOrEqual: the negation of Greater. -/
def LessOrEqual (fuel : Nat) (lhs rhs : ObjectHolder) (st : State) : Res Bool × State :=
  match Greater fuel lhs rhs st with
  | (.ok b, st1) => (.ok (!b), st1)
  | (r, st1) => (r, st1)

/-- runtime::GreaterOrEqual: the negation of Less. -/
def GreaterOrEqual (fuel : Nat) (lhs rhs : ObjectHolder) (st : State) : Res Bool × State :=
  match Less fuel lhs rhs st with
  | (.ok b, st1) => (.ok (!b), st1)
  | (r, st1) => (r, st1)

/- ============= Spec-side definition for the Equal claim ============= -/

/-- The behaviour of runtime::Equal exactly as the specification sentence
phrases it, case by case on the shapes of the two holders: the value
comparison when both hold Numbers, Strings or Bools; true when both
holders are empty; IsTrue of the delegated `lhs.__eq__(rhs)` call when the
left side is a ClassInstance; an error in every other case.  To be
compared against `Equal`, which is translated from the source. -/
def equalSpec (fuel : Nat) (lhs rhs : ObjectHolder) (st : State) : Res Bool × State :=
  match lhs, rhs with
  | .holder _ (.number a), .holder _ (.number b) => (.ok (decide (a = b)), st)
  | .holder _ (.str a), .holder _ (.str b) => (.ok (decide (a = b)), st)
  | .holder _ (.boolean a), .holder _ (.boolean b) => (.ok (a == b), st)
  | .none, .none => (.ok true, st)
  | .holder _ (.inst cls ref), _ =>
    match Call fuel cls ref "__eq__" [rhs] st with
    | (.ok v, st1) => (.ok (IsTrue v), st1)
    | (.ret w, st1) => (.ret w, st1)
    | (.err m, st1) => (.err m, st1)
    | (.timeout, st1) => (.timeout, st1)
  | _, _ => (.err "Cannot compare objects for equality", st)

/- ============= Concrete material used by the scenarios ============= -/

/-- The empty starting state. -/
def st0 : State := { heap := [], output := "" }

/-- A class with no methods at all. -/
def clsA : RClass := .mk "A" [] Option.none

/-- A single NewInstance node of `clsA`; its ClassInstance member lives at
heap reference 0. -/
def nodeA : Statement := .newInstance clsA 0 []

/-- A factory method whose body returns the result of executing the one
NewInstance node `nodeA`; calling it twice executes the same node twice,
exactly as the C++ runs one node's Execute repeatedly. -/
def mthMake : RMethod := .mk "make" [] (.methodBody (.ret nodeA))

/-- The class holding the factory method. -/
def clsFactory : RClass := .mk "F" [mthMake] Option.none

/-- The NewInstance node producing the factory instance (reference 1). -/
def nodeFactory : Statement := .newInstance clsFactory 1 []

/-- Run the `nodeA` node twice through the factory, mutate a field through
the first returned holder in between, and read it back through the second
returned holder. -/
def progAlias : Statement := .compound
  [ .assignment "fac" nodeFactory,
    .assignment "x" (.methodCall (.variableValue ["fac"]) "make" []),
    .fieldAssignment ["x"] "f" (.numericConst 42),
    .assignment "y" (.methodCall (.variableValue ["fac"]) "make" []),
    .assignment "z" (.variableValue ["y", "f"]) ]

/-- An __init__ of arity zero that writes field g of self. -/
def mthInitB : RMethod := .mk "__init__" [] (.fieldAssignment ["self"] "g" (.numericConst 7))

/-- A class whose instances are initialized by `mthInitB`. -/
def clsB : RClass := .mk "B" [mthInitB] Option.none

/-- The single NewInstance node of `clsB` (instance reference 2); each of
its executions runs the matching __init__. -/
def nodeB : Statement := .newInstance clsB 2 []

/-- Factory method around `nodeB`. -/
def mthMakeB : RMethod := .mk "makeB" [] (.methodBody (.ret nodeB))

/-- The class holding `mthMakeB`. -/
def clsFactoryB : RClass := .mk "G" [mthMakeB] Option.none

/-- The NewInstance node producing the second factory (reference 3). -/
def nodeFactoryB : Statement := .newInstance clsFactoryB 3 []

/-- Run the `nodeB` node twice: the second execution runs __init__ again
on the instance already holding the field f written between the two
executions. -/
def progInitTwice : Statement := .compound
  [ .assignment "fac" nodeFactoryB,
    .assignment "x" (.methodCall (.variableValue ["fac"]) "makeB" []),
    .fieldAssignment ["x"] "f" (.numericConst 42),
    .assignment "y" (.methodCall (.variableValue ["fac"]) "makeB" []),
    .assignment "z" (.variableValue ["y", "f"]) ]

/-- The token-sequence scenario input, the two lines of spec section 8:
`if x:` and a two-space-indented `print x`, each newline-terminated. -/
def inputScenario1 : List Char :=
  ['i', 'f', ' ', 'x', ':', '\n', ' ', ' ', 'p', 'r', 'i', 'n', 't', ' ', 'x', '\n']

/-- The string-escape scenario input: the source literal holding
backslash-t and backslash-n between quotes. -/
def inputEscapes : List Char := ['"', 'a', '\\', 't', 'b', '\\', 'n', '"']

/-- An input whose string literal is never terminated. -/
def inputUnterminated : List Char := ['"', 'a', 'b', 'c']

/- ===================== Helper lemmas ===================== -/

/-- A method found by Class::GetMethod lies in the method chain of the
class and carries the requested name. -/
theorem getMethod_mem : ∀ (cls : RClass) (name : String) (m : RMethod),
    GetMethod cls name = some m → m ∈ methodsOfChain cls ∧ m.name = name
  | .mk nm ms parent, name, m, h => by
    unfold GetMethod at h
    unfold methodsOfChain
    cases hf : ms.find? (fun mm => mm.name == name) with
    | some m0 =>
      rw [hf] at h
      cases h
      have hmem := List.mem_of_find?_eq_some hf
      have hp := List.find?_some hf
      refine ⟨List.mem_append_left _ hmem, ?_⟩
      simpa using hp
    | none =>
      rw [hf] at h
      cases parent with
      | none => cases h
      | some p =>
        unfold GetMethodParent at h
        obtain ⟨hmem, hname⟩ := getMethod_mem p name m h
        unfold methodsOfChainParent
        exact ⟨List.mem_append_right _ hmem, hname⟩

/- ===================== Claim theorems ===================== -/

/-- C1: ClassInstance::Call(name, actual_args, context) succeeds exactly
when the first method named `name` found by scanning the class's own
method list and then, on miss, the parent chain has exactly as many formal
parameters as there are actual arguments; on success a fresh closure binds
"self" to a non-owning shared holder of the instance and each formal
parameter, in order, to the matching actual argument, the body runs in
that closure and its outcome is the outcome of the call; otherwise the
call fails with the method error.  Second part: a name match in the own
method list always wins, whatever the parent holds, so a matching-arity
parent method is never reached when the child class has a same-named
method of different arity. -/
theorem C1_call_dispatch (fuel : Nat) (cls : RClass) (ref : Nat) (name : String)
    (args : List ObjectHolder) (st : State) :
    (Call (fuel + 1) cls ref name args st =
      match GetMethod cls name with
      | some m =>
        if m.formal_params.length = args.length then
          ((Execute fuel m.body
              (bindParams (closureInsert [] "self" (.holder .share (.inst cls ref)))
                m.formal_params args) st).1,
           (Execute fuel m.body
              (bindParams (closureInsert [] "self" (.holder .share (.inst cls ref)))
                m.formal_params args) st).2.2)
        else (.err ("Error calling method " ++ name), st)
      | Option.none => (.err ("Error calling method " ++ name), st))
    ∧ (∀ (nm : String) (ms : List RMethod) (p : Option RClass) (m : RMethod),
        ms.find? (fun mm => mm.name == name) = some m →
        GetMethod (.mk nm ms p) name = some m) := by
  constructor
  · cases hG : GetMethod cls name with
    | none => simp [Call, HasMethod, hG]
    | some m =>
      by_cases hl : m.formal_params.length = args.length
      · simp [Call, HasMethod, hG, hl]
      · simp [Call, HasMethod, hG, hl]
  · intro nm ms p m hf
    unfold GetMethod
    rw [hf]

/-- C2: on the two-line input `if x:` and two-space-indented `print x`,
each line newline-terminated, the lexer emits exactly If, Id(x), Char(:),
Newline, Indent, Print, Id(x), Newline, Dedent, Eof; and construction
already positions the cursor on the first token, If. -/
theorem C2_scenario_tokens :
    lexFirstTokens inputScenario1 10
      = .ok [.kwIf, .id "x", .char ':', .newline, .indent, .kwPrint, .id "x", .newline,
             .dedent, .eof]
    ∧ (lexerInit inputScenario1).map (fun st => st.current_token_) = .ok .kwIf := by
  constructor <;> rfl

/-- C3: Equal returns the value comparison when both holders carry
Numbers, Strings or Bools, true when both holders are none, IsTrue of the
delegated lhs.__eq__(rhs) call when the left holder is a ClassInstance,
and in every other case fails with an error, never returning a value:
it coincides with the claim-shaped case analysis equalSpec. -/
theorem C3_equal_cases (fuel : Nat) (lhs rhs : ObjectHolder) (st : State) :
    Equal fuel lhs rhs st = equalSpec fuel lhs rhs st := by
  rcases lhs with _ | ⟨ml, (_ | _ | _ | _ | ⟨lc, lr⟩)⟩ <;>
    rcases rhs with _ | ⟨mr, (_ | _ | _ | _ | ⟨rc, rr⟩)⟩ <;> rfl

/-- C4: whenever the base comparators Equal and Less succeed (leaving the
state unchanged), the derived comparators satisfy NotEqual = not Equal,
Greater = not (Less or Equal), LessOrEqual = not Greater and
GreaterOrEqual = not Less; consequently on two Numbers LessOrEqual holds
exactly when the left integer is at most the right one. -/
theorem C4_derived (fuel : Nat) (lhs rhs : ObjectHolder) (st : State) (bl be : Bool)
    (hl : Less fuel lhs rhs st = (.ok bl, st))
    (he : Equal fuel lhs rhs st = (.ok be, st)) :
    NotEqual fuel lhs rhs st = (.ok (!be), st)
    ∧ Greater fuel lhs rhs st = (.ok (!(bl || be)), st)
    ∧ LessOrEqual fuel lhs rhs st = (.ok (bl || be), st)
    ∧ GreaterOrEqual fuel lhs rhs st = (.ok (!bl), st)
    ∧ (∀ (a b : Int) (ma mb : HolderMode),
        LessOrEqual fuel (.holder ma (.number a)) (.holder mb (.number b)) st
          = (.ok (decide (a ≤ b)), st)) := by
  have main : ∀ (l r : ObjectHolder) (b1 b2 : Bool),
      Less fuel l r st = (.ok b1, st) → Equal fuel l r st = (.ok b2, st) →
      NotEqual fuel l r st = (.ok (!b2), st)
      ∧ Greater fuel l r st = (.ok (!(b1 || b2)), st)
      ∧ LessOrEqual fuel l r st = (.ok (b1 || b2), st)
      ∧ GreaterOrEqual fuel l r st = (.ok (!b1), st) := by
    intro l r b1 b2 h1 h2
    have hg : Greater fuel l r st = (.ok (!(b1 || b2)), st) := by
      unfold Greater
      cases b1 <;> simp [h1, h2]
    refine ⟨?_, hg, ?_, ?_⟩
    · unfold NotEqual
      rw [h2]
    · unfold LessOrEqual
      rw [hg]
      simp
    · unfold GreaterOrEqual
      rw [h1]
  obtain ⟨m1, m2, m3, m4⟩ := main lhs rhs bl be hl he
  refine ⟨m1, m2, m3, m4, ?_⟩
  intro a b ma mb
  have hLessNum : Less fuel (.holder ma (.number a)) (.holder mb (.number b)) st
      = (.ok (decide (a < b)), st) := rfl
  have hEqNum : Equal fuel (.holder ma (.number a)) (.holder mb (.number b)) st
      = (.ok (decide (a = b)), st) := rfl
  obtain ⟨_, _, m3n, _⟩ :=
    main (.holder ma (.number a)) (.holder mb (.number b)) (decide (a < b)) (decide (a = b))
      hLessNum hEqNum
  rw [m3n]
  have hd : (decide (a < b) || decide (a = b)) = decide (a ≤ b) := by
    by_cases h1 : a < b <;> by_cases h2 : a = b <;> simp [h1, h2] <;> omega
  rw [hd]

/-- C5: at end of input, a lexer state with `begin_` false next emits
Newline and sets `begin_`; with `begin_` set, every call with a positive
`indent_pos_` emits one Dedent and decrements it by one; once it reaches
zero the lexer emits Eof, and a further call on the resulting state yields
Eof again without changing it, so Eof is terminal and idempotent. -/
theorem C5_end_of_input (st : LexerState) (h : st.input = []) :
    (st.begin_ = false →
      nextToken st = .ok { st with begin_ := true, indents_ := 0, current_token_ := .newline })
    ∧ (st.begin_ = true → 0 < st.indent_pos_ →
      nextToken st = .ok { st with indent_pos_ := st.indent_pos_ - 1, current_token_ := .dedent })
    ∧ (st.begin_ = true → st.indent_pos_ = 0 →
      nextToken st = .ok { st with current_token_ := .eof }
      ∧ nextToken { st with current_token_ := .eof } = .ok { st with current_token_ := .eof }) := by
  obtain ⟨inp, bg, ind, ipos, ct⟩ := st
  replace h : inp = [] := h
  subst h
  refine ⟨?_, ?_, ?_⟩
  · intro hb
    subst hb
    rfl
  · intro hb hip
    subst hb
    simp [nextToken, LoadNextToken, hip, Nat.pos_iff_ne_zero]
  · intro hb hip
    subst hb
    subst hip
    exact ⟨rfl, rfl⟩

/-- C6: the string escapes for the double quote, the single quote, n and t
map to the double quote, single quote, newline and tab, so lexing the
eight-character source literal holding a backslash-t and a backslash-n
yields a String token whose contents are a, tab, b, newline; and every
escape of a character outside that set drops both the backslash and the
escaped character from the contents. -/
theorem C6_escapes :
    lexFirstTokens inputEscapes 1 = .ok [.str "a\tb\n"]
    ∧ (∀ (q c : Char) (rest : List Char) (line : String),
        c ≠ '"' → c ≠ singleQuote → c ≠ 'n' → c ≠ 't' →
        parseStringBody q ('\\' :: c :: rest) line = parseStringBody q rest line) := by
  refine ⟨rfl, ?_⟩
  intro q c rest line h1 h2 h3 h4
  simp [parseStringBody, h1, h2, h3, h4]

/-- C7: when the opening quote of a string literal is never matched by a
closing quote before the end of input (under the scanning discipline in
which a backslash consumes the following character), parsing the literal
body yields a lex error, never a String token; and the full lexer on such
an input reports the unterminated-string error. -/
theorem C7_unterminated :
    (∀ (l : List Char) (q : Char) (line : String),
        hasCloser q l = false → ∃ m, parseStringBody q l line = .error m)
    ∧ lexFirstTokens inputUnterminated 1 = .error "unterminated string literal" := by
  constructor
  · have H : ∀ (n : Nat) (l : List Char), l.length ≤ n → ∀ (q : Char) (line : String),
        hasCloser q l = false → ∃ m, parseStringBody q l line = .error m := by
      intro n
      induction n with
      | zero =>
        intro l hlen q line _
        have hnil : l = [] := by
          cases l with
          | nil => rfl
          | cons a as => simp at hlen
        subst hnil
        exact ⟨_, rfl⟩
      | succ n ih =>
        intro l hlen q line hc
        cases l with
        | nil => exact ⟨_, rfl⟩
        | cons c rest =>
          by_cases hbs : c = '\\'
          · subst hbs
            cases rest with
            | nil => exact ⟨_, rfl⟩
            | cons next rest2 =>
              have hc2 : hasCloser q rest2 = false := by
                rw [hasCloser.eq_def] at hc
                simpa using hc
              have hlen2 : rest2.length ≤ n := by
                simp only [List.length_cons] at hlen
                omega
              have step : ∃ line2,
                  parseStringBody q ('\\' :: next :: rest2) line
                    = parseStringBody q rest2 line2 := by
                by_cases e1 : next = '"'
                · subst e1
                  exact ⟨line.push '"', by rw [parseStringBody.eq_def]; simp⟩
                · by_cases e2 : next = singleQuote
                  · subst e2
                    exact ⟨line.push singleQuote,
                      by rw [parseStringBody.eq_def]; simp [singleQuote]⟩
                  · by_cases e3 : next = 'n'
                    · subst e3
                      exact ⟨line.push '\n',
                        by rw [parseStringBody.eq_def]; simp [singleQuote]⟩
                    · by_cases e4 : next = 't'
                      · subst e4
                        exact ⟨line.push '\t',
                          by rw [parseStringBody.eq_def]; simp [singleQuote]⟩
                      · exact ⟨line,
                          by rw [parseStringBody.eq_def]; simp [e1, e2, e3, e4]⟩
              obtain ⟨line2, hstep⟩ := step
              rw [hstep]
              exact ih rest2 hlen2 q line2 hc2
          · have hsplit : ¬(c = q) ∧ hasCloser q rest = false := by
              rw [hasCloser.eq_def] at hc
              simp [hbs] at hc
              exact hc
            have hlen2 : rest.length ≤ n := by
              simp only [List.length_cons] at hlen
              omega
            have hstep : parseStringBody q (c :: rest) line
                = parseStringBody q rest (line.push c) := by
              rw [parseStringBody.eq_def]
              simp [hbs, hsplit.1]
            rw [hstep]
            exact ih rest hlen2 q (line.push c) hsplit.2
    intro l q line hc
    exact H l.length l le_rfl q line hc
  · rfl

/-- C8: when the left operand of And evaluates to a holder whose IsTrue is
false, executing the And returns the owning Bool(false) and leaves the
closure and state exactly as the left operand left them: the right operand
is never evaluated and none of its side effects occur. -/
theorem C8_and_short_circuit (fuel : Nat) (lhs rhs : Statement) (closure c1 : Closure)
    (st st1 : State) (v : ObjectHolder)
    (h : Execute fuel lhs closure st = (.ok v, c1, st1))
    (hv : IsTrue v = false) :
    Execute (fuel + 1) (.andOp lhs rhs) closure st
      = (.ok (.holder .own (.boolean false)), c1, st1) := by
  simp [Execute, h, hv]

/-- C9: executing a NewInstance node whose class chain has no __init__
of arity equal to the number of argument expressions evaluates none of the
arguments — the closure and state come back untouched, so no side effect
of theirs occurs — and returns the shared holder of the node's instance
directly. -/
theorem C9_no_init_no_args (fuel : Nat) (cls : RClass) (ref : Nat) (args : List Statement)
    (closure : Closure) (st : State)
    (h : ∀ m ∈ methodsOfChain cls, m.name = "__init__" → m.formal_params.length ≠ args.length) :
    Execute (fuel + 1) (.newInstance cls ref args) closure st
      = (.ok (.holder .share (.inst cls ref)), closure, st) := by
  have hH : HasMethod cls "__init__" args.length = false := by
    unfold HasMethod
    cases hG : GetMethod cls "__init__" with
    | none => rfl
    | some m =>
      obtain ⟨hmem, hname⟩ := getMethod_mem cls "__init__" m hG
      have hlen := h m hmem hname
      simp [hlen]
  simp [Execute, hH]

/-- C10: every successful execution of one NewInstance node returns a
non-owning holder of the single ClassInstance stored in the node (same
class, same reference, whatever the closure, state or fuel), so two
executions of the same node alias the identical instance.  The concrete
runs show the consequences: in progAlias a field written through the first
returned holder is read back through the second; in progInitTwice the
matching __init__ of the second execution runs on the same
already-populated instance, whose earlier field f survives next to the
re-written g. -/
theorem C10_node_identity :
    (∀ (fuel : Nat) (cls : RClass) (ref : Nat) (args : List Statement) (closure c2 : Closure)
        (st st2 : State) (v : ObjectHolder),
        Execute fuel (.newInstance cls ref args) closure st = (.ok v, c2, st2) →
        v = .holder .share (.inst cls ref))
    ∧ ((Execute 20 progAlias [] st0).1 = .ok .none
        ∧ closureFind (Execute 20 progAlias [] st0).2.1 "z" = some (.holder .own (.number 42)))
    ∧ (closureFind (Execute 20 progInitTwice [] st0).2.1 "z"
          = some (.holder .own (.number 42))
        ∧ heapGet (Execute 20 progInitTwice [] st0).2.2.heap 2
            = [("g", .holder .own (.number 7)), ("f", .holder .own (.number 42))]) := by
  refine ⟨?_, ⟨rfl, rfl⟩, ⟨rfl, rfl⟩⟩
  intro fuel cls ref args closure c2 st st2 v h
  cases fuel with
  | zero => simp [Execute] at h
  | succ fuel =>
    simp only [Execute] at h
    split at h
    · split at h
      · split at h <;> simp_all
      · simp_all
      · simp_all
      · simp_all
    · simp_all

/- ===================== Witnesses ===================== -/

/-- Witness for C1: the own-list match of the child class B wins over the
parent clsA. -/
theorem C1_call_dispatch_witness :
    GetMethod (.mk "B" [RMethod.mk "f" ["u", "v"] .noneConst] (some clsA)) "f"
      = some (.mk "f" ["u", "v"] .noneConst) :=
  (C1_call_dispatch 0 clsA 0 "f" [] st0).2 "B" [RMethod.mk "f" ["u", "v"] .noneConst]
    (some clsA) (.mk "f" ["u", "v"] .noneConst) rfl

/-- Witness for C4 on the Numbers 1 and 2. -/
theorem C4_derived_witness :
    Less 1 (.holder .own (.number 1)) (.holder .own (.number 2)) st0 = (.ok true, st0)
    ∧ Equal 1 (.holder .own (.number 1)) (.holder .own (.number 2)) st0 = (.ok false, st0)
    ∧ NotEqual 1 (.holder .own (.number 1)) (.holder .own (.number 2)) st0 = (.ok true, st0) :=
  ⟨rfl, rfl,
    (C4_derived 1 (.holder .own (.number 1)) (.holder .own (.number 2)) st0 true false
      rfl rfl).1⟩

/-- Witness for C5: at end of input with indent_pos_ two, one Dedent is
emitted and the counter drops to one. -/
theorem C5_end_of_input_witness :
    nextToken { input := [], begin_ := true, indents_ := 0, indent_pos_ := 2,
                current_token_ := .newline }
      = .ok { input := [], begin_ := true, indents_ := 0, indent_pos_ := 1,
              current_token_ := .dedent } :=
  (C5_end_of_input
    { input := [], begin_ := true, indents_ := 0, indent_pos_ := 2,
      current_token_ := .newline } rfl).2.1 rfl (by decide)

/-- Witness for C6: the unrecognized escape of x is dropped whole. -/
theorem C6_escapes_witness :
    parseStringBody '"' ['\\', 'x', '"'] "" = parseStringBody '"' ['"'] "" :=
  C6_escapes.2 '"' 'x' ['"'] "" (by decide) (by decide) (by decide) (by decide)

/-- Witness for C7 on a literal body with no closing quote. -/
theorem C7_unterminated_witness :
    hasCloser '"' ['a', 'b'] = false
    ∧ ∃ m, parseStringBody '"' ['a', 'b'] "" = .error m :=
  ⟨rfl, C7_unterminated.1 ['a', 'b'] '"' "" rfl⟩

/-- Witness for C8: a false left operand short-circuits past a printing
right operand, leaving the state untouched. -/
theorem C8_and_short_circuit_witness :
    Execute 2 (.andOp (.boolConst false) (.print [.numericConst 1])) [] st0
      = (.ok (.holder .own (.boolean false)), [], st0) :=
  C8_and_short_circuit 1 (.boolConst false) (.print [.numericConst 1]) [] [] st0 st0
    (.holder .own (.boolean false)) rfl rfl

/-- Witness for C9: with no __init__ at all, a printing argument is never
evaluated. -/
theorem C9_no_init_no_args_witness :
    Execute 1 (.newInstance clsA 0 [.print [.stringConst "boom"]]) [] st0
      = (.ok (.holder .share (.inst clsA 0)), [], st0) :=
  C9_no_init_no_args 0 clsA 0 [.print [.stringConst "boom"]] [] st0 (by decide)

/-- Witness for C10 at a concrete execution of the nodeA node. -/
theorem C10_node_identity_witness :
    ObjectHolder.holder .share (.inst clsA 0) = .holder .share (.inst clsA 0) :=
  C10_node_identity.1 1 clsA 0 [] [] [] st0 st0 (.holder .share (.inst clsA 0)) rfl

end Mython
